import Mathlib

/-!
Verification of the MicroPython-ESP32-lib signal-debounce and event-detection
core, shallowly embedded in Lean 4.

Pin reads (`pin.value()`) are modelled as a list of integer samples consumed in
order; every sleep call (`Sleep.sync_ms` / `Sleep.async_ms`) only spaces the
samples and is dropped.  A loop that would keep reading past the end of the
supplied sample list is modelled as returning `none` (the call has not
terminated on the given inputs); `some r` means the call returned `r`.
-/

namespace MicroPythonEsp32

/-! ### `System/Digital.py` — `Signal` -/

/-- `Signal` from `System/Digital.py`: a value/name pair; `Signal.HIGH = Signal(1, "HIGH")`
and `Signal.LOW = Signal(0, "LOW")`. -/
structure Signal where
  value : Int
  name : String
deriving DecidableEq, Repr

def Signal.HIGH : Signal := ⟨1, "HIGH"⟩

def Signal.LOW : Signal := ⟨0, "LOW"⟩

/-- `Signal.__eq__`: two signals are equal when both `value` and `name` agree. -/
def sigEq (a b : Signal) : Bool := a.value == b.value && a.name == b.name

/-- `Signal.inverse`: HIGH ↦ LOW, LOW ↦ HIGH, anything else raises `ValueError`
(modelled as `none`). -/
def Signal.inverse (s : Signal) : Option Signal :=
  if sigEq s Signal.HIGH then some Signal.LOW
  else if sigEq s Signal.LOW then some Signal.HIGH
  else none

/-! ### `System/Digital.py` / `Utils/DigitalFilters.py` — count filtering

`countFiltering_sync(pin, target, threshold, interval_ms)`:

    cnt = 0
    while -threshold < cnt < threshold:
      if pin.value() == target.value:
        cnt = cnt + 1 if cnt >= 0 else 1
      else:
        cnt = cnt - 1 if cnt <= 0 else -1
      Sleep.sync_ms(interval_ms)
    return cnt >= threshold

The pin is the sample list; `targetV` is `target.value`.  The result is the
returned boolean paired with the number of loop iterations (pin reads)
performed. -/

/-- One loop-body update of the debounce counter
(`cnt = cnt + 1 if cnt >= 0 else 1` on a match, `cnt = cnt - 1 if cnt <= 0 else -1` otherwise). -/
def cntStep (targetV cnt s : Int) : Int :=
  if s == targetV then (if 0 ≤ cnt then cnt + 1 else 1)
  else (if cnt ≤ 0 then cnt - 1 else -1)

/-- The `while -threshold < cnt < threshold` loop of `countFiltering_sync`,
returning the final `cnt >= threshold` together with the number of pin reads consumed. -/
def countFilteringGo (targetV threshold : Int) : Int → List Int → Option (Bool × Nat)
  | cnt, [] =>
    if -threshold < cnt ∧ cnt < threshold then none
    else some (decide (threshold ≤ cnt), 0)
  | cnt, s :: rest =>
    if -threshold < cnt ∧ cnt < threshold then
      (countFilteringGo targetV threshold (cntStep targetV cnt s) rest).map
        (fun r => (r.1, r.2 + 1))
    else some (decide (threshold ≤ cnt), 0)

/-- `countFiltering_sync` of `System/Digital.py` (the counter starts at `0`). -/
def countFiltering_sync (targetV threshold : Int) (samples : List Int) : Option (Bool × Nat) :=
  countFilteringGo targetV threshold 0 samples

/-- `countFiltering_async` of `Utils/DigitalFilters.py`: its loop body is identical to
`countFiltering_sync` (only the sleeps are awaited). -/
def countFiltering_async (targetV threshold : Int) (samples : List Int) : Option (Bool × Nat) :=
  countFilteringGo targetV threshold 0 samples

/-- The counter trajectory: the value of `cnt` after folding the loop body over a
list of consumed samples. -/
def cntIter (targetV cnt : Int) (l : List Int) : Int :=
  l.foldl (cntStep targetV) cnt

/-! ### `System/Digital.py` / `Utils/DigitalFilters.py` — stable change

`isChangedStably_sync(pin, start, end, threshold, interval_ms)`:

    if pin.value() != start.value:
      Sleep.sync_ms(interval_ms)
      return False
    while pin.value() == start.value:
      Sleep.sync_ms(interval_ms)
    return countFiltering_sync(pin, end, threshold, interval_ms)
-/

/-- The `while pin.value() == start.value` loop of `isChangedStably_sync`, followed
directly by the tail call to `countFiltering_sync` (as in the source). -/
def isChangedStablyGo (startV endV threshold : Int) : List Int → Option Bool
  | [] => none
  | x :: xs =>
    if x == startV then isChangedStablyGo startV endV threshold xs
    else (countFiltering_sync endV threshold xs).map Prod.fst

/-- `isChangedStably_sync` of `System/Digital.py`. -/
def isChangedStably_sync (startV endV threshold : Int) : List Int → Option Bool
  | [] => none
  | r :: rest =>
    if r == startV then isChangedStablyGo startV endV threshold rest
    else some false

/-- `isChangedStably_async` of `Utils/DigitalFilters.py`: body identical to the sync form. -/
def isChangedStably_async (startV endV threshold : Int) (samples : List Int) : Option Bool :=
  isChangedStably_sync startV endV threshold samples

/-- Spec-side helper: the leave-`start` wait on its own, returning the samples
remaining after the first non-`start` read has been consumed. -/
def leaveStart (startV : Int) : List Int → Option (List Int)
  | [] => none
  | x :: xs => if x == startV then leaveStart startV xs else some xs

/-- Spec-side composition, following the spec's words for `detectStableChange`:
false if not currently at `start`; otherwise wait for the line to leave `start`
and delegate to the count filter on the remaining samples. -/
def detectStableChange_spec (startV endV threshold : Int) : List Int → Option Bool
  | [] => none
  | r :: rest =>
    if r == startV then
      (leaveStart startV rest).bind
        (fun rem => (countFiltering_sync endV threshold rem).map Prod.fst)
    else some false

/-! ### `Utils/Flag.py` — `BooleanFlag` -/

/-- Modelled from the spec: `Utils/Flag.py` (class `BooleanFlag`) is not under `src/`;
only its callers are.  Per the spec's EdgeFlag data model it is a plain boolean cell:
`activate()` sets it, `deactivate()` clears it, `isActivate()` reads it, exactly as
`Device/Button.py` uses it. -/
structure BooleanFlag where
  active : Bool
deriving DecidableEq, Repr

def BooleanFlag.activate (_ : BooleanFlag) : BooleanFlag := ⟨true⟩

def BooleanFlag.deactivate (_ : BooleanFlag) : BooleanFlag := ⟨false⟩

def BooleanFlag.isActivate (f : BooleanFlag) : Bool := f.active

/-! ### `Device/Button.py` — `State` and the interrupt-driven strategy -/

/-- `State` from `Device/Button.py`: BOUNCING / RELEASED / PRESSED. -/
inductive State where
  | BOUNCING
  | RELEASED
  | PRESSED
deriving DecidableEq, Repr

/-- `InterruptDrivenStateDebounceButton.isToReleased`: read-and-clear on
`_toReleased_flag`; returns the boolean result and the flag's new state. -/
def isToReleased (f : BooleanFlag) : Bool × BooleanFlag :=
  if f.isActivate then (true, f.deactivate) else (false, f)

/-- `InterruptDrivenStateDebounceButton.isToPressed`: read-and-clear on
`_toPressed_flag`. -/
def isToPressed (f : BooleanFlag) : Bool × BooleanFlag :=
  if f.isActivate then (true, f.deactivate) else (false, f)

/-- The results of `n` successive `isToReleased` calls starting from a given flag
state, with no producer activation in between. -/
def isToReleasedCalls (f : BooleanFlag) : Nat → List Bool
  | 0 => []
  | n + 1 =>
    let r := isToReleased f
    r.1 :: isToReleasedCalls r.2 n

/-- The results of `n` successive `isToPressed` calls starting from a given flag
state, with no producer activation in between. -/
def isToPressedCalls (f : BooleanFlag) : Nat → List Bool
  | 0 => []
  | n + 1 =>
    let r := isToPressed f
    r.1 :: isToPressedCalls r.2 n

/-- The mutable state of an `InterruptDrivenStateDebounceButton` touched by
`_debounce_handler` and the edge queries: `_last_state`, `_current_state`, the two
edge flags, and whether the ambiguous branch re-armed `_debounce_timer`. -/
structure DebounceState where
  lastState : State
  currentState : State
  toReleasedFlag : BooleanFlag
  toPressedFlag : BooleanFlag
  timerRearmed : Bool
deriving DecidableEq, Repr

/-- State after `__init__`: `StateDebounceButton.__init__` sets `_last_state = BOUNCING`,
`InterruptDrivenStateDebounceButton.__init__` sets `_current_state = BOUNCING`; both
edge flags are freshly constructed (inactive). -/
def freshDebounceState : DebounceState :=
  ⟨State.BOUNCING, State.BOUNCING, ⟨false⟩, ⟨false⟩, false⟩

/-- `_debounce_handler` up to its suspension point: sample the pin once
(`pinValue = self.pin.value()`), update `_current_state` (re-arming the timer when
still ambiguous), then activate `_toReleased_flag` / `_toPressed_flag` on a detected
transition.  The handler then holds the activated flag for `2 * interval_ms`
(`await Sleep.async_ms(self.interval_ms << 1)`); this function is the state during
that hold window. -/
def debounceHandlerSample (relV prsV pinValue : Int) (s : DebounceState) : DebounceState :=
  let s1 :=
    if pinValue == relV then { s with currentState := State.RELEASED }
    else if pinValue == prsV then { s with currentState := State.PRESSED }
    else { s with timerRearmed := true }
  if s1.currentState = State.RELEASED ∧ s1.lastState ≠ State.RELEASED then
    { s1 with toReleasedFlag := s1.toReleasedFlag.activate }
  else if s1.currentState = State.PRESSED ∧ s1.lastState ≠ State.PRESSED then
    { s1 with toPressedFlag := s1.toPressedFlag.activate }
  else s1

/-- The tail of `_debounce_handler` after the hold sleep: the flag activated by the
branch taken is deactivated unconditionally. -/
def debounceHandlerFinish (s : DebounceState) : DebounceState :=
  if s.currentState = State.RELEASED ∧ s.lastState ≠ State.RELEASED then
    { s with toReleasedFlag := s.toReleasedFlag.deactivate }
  else if s.currentState = State.PRESSED ∧ s.lastState ≠ State.PRESSED then
    { s with toPressedFlag := s.toPressedFlag.deactivate }
  else s

/-! ### `Device/Button.py` — `InterruptDrivenStateDebounceButton.deactivate`

`deactivate` (lines 337-339) runs `self._debounce_timer.deactivate()` and
`self._irq_listenerHandler.deactivate()` — nothing else.  The pin IRQ handler
registered by `__init__` (`self.pin.irq(trigger=..., handler=self._irq_handler)`)
is never detached, and `BaseButton.deactivate` (which would stop the
`listenerHandler` poll pairs) is not called. -/

/-- The fields of `Timer.ListenerTimer.AsyncListenerAsyncHandler` that its
`deactivate` touches: the running task (if any) and the `active` flag. -/
structure ListenerTimerState where
  task : Bool
  active : Bool
deriving DecidableEq, Repr

/-- `ListenerTimer.AsyncListenerAsyncHandler.deactivate`: if a task is pending it is
cancelled and `active` cleared; otherwise nothing changes. -/
def ListenerTimerState.deactivate (s : ListenerTimerState) : ListenerTimerState :=
  if s.task then ⟨false, false⟩ else s

/-- The `active` flag of a `ListenerHandler.ListenerHandler` instance. -/
structure ListenerHandlerState where
  active : Bool
deriving DecidableEq, Repr

/-- `ListenerHandler.ListenerHandler.deactivate`: clears `active`. -/
def ListenerHandlerState.deactivate (_ : ListenerHandlerState) : ListenerHandlerState :=
  ⟨false⟩

/-- The ownership-relevant state of an `InterruptDrivenStateDebounceButton`
instance: whether its pin IRQ handler is attached, its `_debounce_timer`,
its `_irq_listenerHandler`, the inherited `isActive` flag, and the inherited
`listenerHandler` poll pairs of `BaseButton`. -/
structure IDSDButtonState where
  pinIrqAttached : Bool
  debounceTimer : ListenerTimerState
  irqListenerHandler : ListenerHandlerState
  baseIsActive : Bool
  baseListenerHandlers : List ListenerHandlerState
deriving DecidableEq, Repr

/-- State right after `InterruptDrivenStateDebounceButton.__init__`: the pin IRQ is
attached; `_debounce_timer` has no task yet and `active = True`
(`ListenerTimer.AsyncListenerAsyncHandler.__init__` sets `self.active = True`);
`_irq_listenerHandler` is inactive; `BaseButton.__init__` sets `isActive = False`
and an empty `listenerHandler` list. -/
def IDSDButtonState.init : IDSDButtonState :=
  ⟨true, ⟨false, true⟩, ⟨false⟩, false, []⟩

/-- A button whose debounce timer has been activated (a timer task is pending). -/
def IDSDButtonState.midDebounce : IDSDButtonState :=
  ⟨true, ⟨true, true⟩, ⟨false⟩, true, []⟩

/-- `InterruptDrivenStateDebounceButton.deactivate` (lines 337-339): deactivates
`_debounce_timer` and `_irq_listenerHandler` only. -/
def IDSDButtonState.deactivate (s : IDSDButtonState) : IDSDButtonState :=
  { s with
    debounceTimer := s.debounceTimer.deactivate
    irqListenerHandler := s.irqListenerHandler.deactivate }

/-! ### `System/Time/Timer.py` — `ListenerTimer.AsyncListenerAsyncHandler`
attribute state and `activate` (for the startup behaviour of the
interrupt-driven button) -/

/-- The `active` flag and the `task` attribute of a
`Timer.ListenerTimer.AsyncListenerAsyncHandler`.  Unlike its sync sibling
(which initialises `self.task = None`), this class's `__init__` never assigns
`self.task` at all, so the attribute can be missing: `task = none` models the
missing attribute (any read raises `AttributeError`), `some false` models a
stored Python `None`, `some true` a pending listen task. -/
structure ListenerTimerAttrState where
  active : Bool
  task : Option Bool
deriving DecidableEq, Repr

/-- `ListenerTimer.AsyncListenerAsyncHandler.__init__` (Timer.py lines 208-213):
sets `self.active = True`; `self.task` is never assigned. -/
def listenerTimerAsyncHandler_init : ListenerTimerAttrState :=
  ⟨true, none⟩

/-- `ListenerTimer.AsyncListenerAsyncHandler.activate` (Timer.py lines 228-232):
its first statement `if self.task is not None:` reads `self.task`, raising
`AttributeError` (modelled as `none`) when the attribute was never assigned;
otherwise it deactivates any pending task, sets `active = True` and stores the
newly created listen task. -/
def listenerTimerAsyncHandler_activate (s : ListenerTimerAttrState) :
    Option ListenerTimerAttrState :=
  match s.task with
  | none => none
  | some _ => some ⟨true, some true⟩

/-- `InterruptDrivenStateDebounceButton.activate` (Button.py lines 280-283):
`await self._debounce_timer.activate()` is its only live statement
(`_irq_listenerHandler.activate()` is commented out), so an `AttributeError`
raised inside the timer's `activate` propagates and the button state `s` is
left untouched — in particular no debounce listen task is ever created. -/
def interruptButtonActivate (timer : ListenerTimerAttrState) (s : DebounceState) :
    Option (ListenerTimerAttrState × DebounceState) :=
  (listenerTimerAsyncHandler_activate timer).map (fun tm => (tm, s))

/-! ### `Device/Button.py` — construction (`BaseButton.__init__`,
`CountFilteringImmediateDebounceButton.__init__`) -/

/-- The configuration stored by `BaseButton.__init__`. -/
structure BaseButtonCfg where
  released : Signal
  pressed : Signal
  interval_ms : Int
  isActive : Bool
deriving DecidableEq, Repr

/-- `BaseButton.__init__(pin, released_signal, interval_ms)`: stores the signals
(`pressed_signal = Signal.inverse(released_signal)`, the only operation that can
raise), the interval, and `isActive = False`.  No validation of `interval_ms` is
performed. -/
def BaseButton_init (released : Signal) (interval_ms : Int) : Option BaseButtonCfg :=
  (Signal.inverse released).map (fun prs => ⟨released, prs, interval_ms, false⟩)

/-- The configuration stored by `CountFilteringImmediateDebounceButton.__init__`. -/
structure CountFilteringButtonCfg where
  base : BaseButtonCfg
  threshold : Int
deriving DecidableEq, Repr

/-- `CountFilteringImmediateDebounceButton.__init__(pin, released_signal, interval_ms,
threshold)`: calls `super().__init__` and stores `threshold`.  No validation of
`threshold` (or `interval_ms`) is performed. -/
def CountFilteringImmediateDebounceButton_init (released : Signal)
    (interval_ms threshold : Int) : Option CountFilteringButtonCfg :=
  (BaseButton_init released interval_ms).map (fun b => ⟨b, threshold⟩)

/-! ### `System/Time/Sleep.py` — `async_until_async` and
`BaseButton.isClickedOnce`

`async_until_async(condition, timeout_ms, interval_ms)` with an integer timeout:

    end_ms = Time.current_ms() + timeout_ms
    while not await condition() and Time.current_ms() < end_ms:
      await async_ms(interval_ms)
    return await condition()

Each `await condition()` call is an observation; the loop's clock read after an
in-loop call is paired with it.  `obs` lists successive `(condition result,
current_ms after it)` pairs; the final `return await condition()` consumes the next
observation (its time component is never read). -/

/-- The wait loop of `async_until_async` followed by the final `await condition()`. -/
def asyncUntilGo (end_ms : Int) : List (Bool × Int) → Option Bool
  | [] => none
  | (c, tm) :: rest =>
    if c = false ∧ tm < end_ms then asyncUntilGo end_ms rest
    else (rest.head?).map Prod.fst

/-- `Sleep.async_until_async` with an integer `timeout_ms`, entered at clock value
`now0`. -/
def async_until_async (timeout_ms now0 : Int) (obs : List (Bool × Int)) : Option Bool :=
  asyncUntilGo (now0 + timeout_ms) obs

/-- The `timeout_ms == 0` branch of `isClickedOnce`:
`while not await self.isToReleased(): await Sleep.async_ms(self.interval_ms)`. -/
def isClickedOnceWait : List Bool → Option Unit
  | [] => none
  | c :: rest => if c then some () else isClickedOnceWait rest

/-- `BaseButton.isClickedOnce(timeout_ms)` (lines 89-97).  `pressResult` is the
result of the initial `await self.isToPressed()`; `relObs` lists the successive
results of `await self.isToReleased()` (with clock readings, used only in the
timeout branch). -/
def isClickedOnce (timeout_ms : Int) (pressResult : Bool) (now0 : Int)
    (relObs : List (Bool × Int)) : Option Bool :=
  if pressResult = false then some false
  else if 0 < timeout_ms then
    (async_until_async timeout_ms now0 relObs).map (fun r => !r)
  else
    (isClickedOnceWait (relObs.map Prod.fst)).map (fun _ => true)

/-! ### `Device/Button.py` — `BaseButton.isClicked`

    if times < 1 or timeout_ms < 1: return False
    if not await self.isToPressed(): return False
    end_ms = Time.current_ms() + timeout_ms
    for i in range(times-1):
      while not await self.isToReleased() and Time.current_ms() < end_ms:
        await Sleep.async_ms(1)
      while not await self.isToPressed() and Time.current_ms() < end_ms:
        await Sleep.async_ms(1)
      if Time.current_ms() >= end_ms: return False
    while not await self.isToReleased() and Time.current_ms() < end_ms:
      await Sleep.async_ms(1)
    if Time.current_ms() >= end_ms: return False
    return True

Time model: each `Sleep.async_ms(1)` advances the clock by exactly 1 ms and all
other operations take no time; edge queries are a function of the clock
(`env.rel t` / `env.prs t` is the result of `isToReleased` / `isToPressed` when
called at time `t`). -/

/-- The environment of an `isClicked` call: edge-query results indexed by clock value. -/
structure ClickEnv where
  rel : Int → Bool
  prs : Int → Bool

/-- `while not f(now) and now < end_ms: now += 1`, with the remaining budget
`end_ms - now` made explicit so the recursion is structural; returns the clock
value at which the loop exits. -/
def waitEdgeFrom (f : Int → Bool) : Int → Nat → Int
  | now, 0 => now
  | now, b + 1 => if f now then now else waitEdgeFrom f (now + 1) b

/-- Exit time of the wait loop `while not f(now) and now < end_ms`. -/
def waitEdge (f : Int → Bool) (end_ms now : Int) : Int :=
  waitEdgeFrom f now (end_ms - now).toNat

/-- The `for i in range(times-1)` body of `isClicked`: wait for release, wait for
press, and return `False` (here `none`) if the deadline has passed; otherwise
continue with the next repetition.  On success it returns the clock value after
the last repetition. -/
def clickReps (env : ClickEnv) (end_ms : Int) : Nat → Int → Option Int
  | 0, now => some now
  | k + 1, now =>
    let t1 := waitEdge env.rel end_ms now
    let t2 := waitEdge env.prs end_ms t1
    if end_ms ≤ t2 then none else clickReps env end_ms k t2

/-- `BaseButton.isClicked(timeout_ms, times)`, entered at clock value `now0`. -/
def isClicked (timeout_ms times : Int) (env : ClickEnv) (now0 : Int) : Bool :=
  if times < 1 ∨ timeout_ms < 1 then false
  else if env.prs now0 = false then false
  else
    match clickReps env (now0 + timeout_ms) (times - 1).toNat now0 with
    | none => false
    | some t =>
      if now0 + timeout_ms ≤ waitEdge env.rel (now0 + timeout_ms) t then false else true

/-- Spec-side chained completion time of an `n`-click sequence: alternate
release/press waits `k` times, all against the one shared deadline. -/
def clickChainTime (env : ClickEnv) (end_ms : Int) : Nat → Int → Int
  | 0, now => now
  | k + 1, now => clickChainTime env end_ms k (waitEdge env.prs end_ms (waitEdge env.rel end_ms now))

/-- Spec-side time at which the final release wait of the click sequence exits. -/
def clickFinalTime (env : ClickEnv) (end_ms : Int) (k : Nat) (now : Int) : Int :=
  waitEdge env.rel end_ms (clickChainTime env end_ms k now)

/-- A press–release–press–release sequence completing within 500 ms of the initial
press: press edges at 0 and 200, release edges at 100 and 400. -/
def env500 : ClickEnv :=
  ⟨fun t => t == 100 || t == 400, fun t => t == 0 || t == 200⟩

/-- The same double-click shape but taking 600 ms in total: press edges at 0 and
200, release edges at 100 and 600. -/
def env600 : ClickEnv :=
  ⟨fun t => t == 100 || t == 600, fun t => t == 0 || t == 200⟩

/-! ## Theorems -/

/-- C9: for every Signal `s` in {HIGH, LOW}, `inverse (inverse s) = s`
(`Signal.inverse` is an involution on the two signal values). -/
theorem signal_inverse_involutive (s : Signal) (h : s = Signal.HIGH ∨ s = Signal.LOW) :
    (Signal.inverse s).bind Signal.inverse = some s := by
  rcases h with h | h <;> subst h <;> decide

/-- Witness for C9 at `s = Signal.HIGH`. -/
theorem signal_inverse_involutive_witness :
    (Signal.HIGH = Signal.HIGH ∨ Signal.HIGH = Signal.LOW) ∧
    (Signal.inverse Signal.HIGH).bind Signal.inverse = some Signal.HIGH :=
  ⟨Or.inl rfl, signal_inverse_involutive Signal.HIGH (Or.inl rfl)⟩

/-- C10: for every threshold ≤ 0, `countFiltering_sync` and `countFiltering_async`
return `True` immediately, consuming zero pin reads: the loop guard
`-threshold < cnt < threshold` is false for the initial counter 0 and the result
`0 >= threshold` holds. -/
theorem countFiltering_nonpositive_threshold (targetV t : Int) (ht : t ≤ 0)
    (samples : List Int) :
    countFiltering_sync targetV t samples = some (true, 0) ∧
    countFiltering_async targetV t samples = some (true, 0) := by
  have hnot : ¬(-t < (0 : Int) ∧ (0 : Int) < t) := fun hc => absurd hc.2 (not_lt.mpr ht)
  have hd : decide (t ≤ (0 : Int)) = true := decide_eq_true ht
  cases samples <;>
    simp [countFiltering_sync, countFiltering_async, countFilteringGo, hnot, hd, ht]

/-- Witness for C10 at `threshold = 0`. -/
theorem countFiltering_nonpositive_threshold_witness :
    (0 : Int) ≤ 0 ∧ countFiltering_sync 1 0 [0, 1] = some (true, 0) :=
  ⟨le_refl 0, (countFiltering_nonpositive_threshold 1 0 (le_refl 0) [0, 1]).1⟩

theorem isToReleasedCalls_inactive : ∀ n : Nat,
    isToReleasedCalls ⟨false⟩ n = List.replicate n false := by
  intro n
  induction n with
  | zero => rfl
  | succ n ih =>
    simp [isToReleasedCalls, isToReleased, BooleanFlag.isActivate, List.replicate, ih]

theorem isToPressedCalls_inactive : ∀ n : Nat,
    isToPressedCalls ⟨false⟩ n = List.replicate n false := by
  intro n
  induction n with
  | zero => rfl
  | succ n ih =>
    simp [isToPressedCalls, isToPressed, BooleanFlag.isActivate, List.replicate, ih]

/-- C3: per single activation of an edge flag, the first `isToReleased`
(resp. `isToPressed`) call returns true and clears the flag, and every subsequent
call without an intervening activation returns false; with the flag inactive every
call returns false. -/
theorem edge_flag_consumed_at_most_once (n : Nat) :
    isToReleasedCalls ⟨true⟩ (n + 1) = true :: List.replicate n false ∧
    isToPressedCalls ⟨true⟩ (n + 1) = true :: List.replicate n false ∧
    isToReleasedCalls ⟨false⟩ n = List.replicate n false ∧
    isToPressedCalls ⟨false⟩ n = List.replicate n false := by
  refine ⟨?_, ?_, isToReleasedCalls_inactive n, isToPressedCalls_inactive n⟩
  · simp [isToReleasedCalls, isToReleased, BooleanFlag.isActivate, BooleanFlag.deactivate,
      isToReleasedCalls_inactive n]
  · simp [isToPressedCalls, isToPressed, BooleanFlag.isActivate, BooleanFlag.deactivate,
      isToPressedCalls_inactive n]

/-- C4 (code evaluated at the failing input): `InterruptDrivenStateDebounceButton.deactivate`
cancels the pending debounce-timer task but leaves the pin IRQ handler attached on
every instance, and never touches the inherited `BaseButton` poll pairs or
`isActive` — contradicting the claim that deactivation detaches the interrupt
handler. -/
theorem deactivate_leaves_irq_attached :
    (IDSDButtonState.deactivate IDSDButtonState.midDebounce).pinIrqAttached = true ∧
    (IDSDButtonState.deactivate IDSDButtonState.midDebounce).debounceTimer.task = false ∧
    (∀ s : IDSDButtonState,
      (IDSDButtonState.deactivate s).pinIrqAttached = s.pinIrqAttached ∧
      (IDSDButtonState.deactivate s).baseListenerHandlers = s.baseListenerHandlers ∧
      (IDSDButtonState.deactivate s).baseIsActive = s.baseIsActive) :=
  ⟨rfl, rfl, fun _ => ⟨rfl, rfl, rfl⟩⟩

/-- Latent (unreachable) path of `_debounce_handler`: if a first debounce pass did
run on a fresh instance whose line reads released (released signal HIGH = 1,
pressed = 0, pin value 1), it would activate `_toReleased_flag` because
`_last_state` is still BOUNCING ≠ RELEASED.  This path is never reached: see
`startup_isToReleased_always_false` — activation raises before any debounce pass
can be scheduled. -/
theorem debounceHandler_first_pass_would_set_toReleased :
    ((debounceHandlerSample 1 0 1 freshDebounceState).toReleasedFlag).isActivate = true := by
  decide

/-- C5: on a freshly constructed interrupt-driven button no spurious release event
can be observed at startup: `activate()` raises `AttributeError` out of
`_debounce_timer.activate()` (the timer's `__init__` never assigns `self.task`),
so no debounce-timer pass ever runs, `_toReleased_flag` remains in its
constructed inactive state, and every call to `isToReleased` returns false. -/
theorem startup_isToReleased_always_false :
    interruptButtonActivate listenerTimerAsyncHandler_init freshDebounceState = none ∧
    freshDebounceState.toReleasedFlag.isActivate = false ∧
    (∀ n : Nat, isToReleasedCalls freshDebounceState.toReleasedFlag n =
      List.replicate n false) :=
  ⟨rfl, rfl, fun n => isToReleasedCalls_inactive n⟩

/-- C6 (code evaluated at the failing input): constructing a
`CountFilteringImmediateDebounceButton` with `interval_ms = 0` and `threshold = 0`
succeeds (no error is raised): the constructors store the values without any
validation; the only construction-time failure is `Signal.inverse` on a
non-HIGH/LOW signal. -/
theorem construction_accepts_invalid_config :
    CountFilteringImmediateDebounceButton_init Signal.HIGH 0 0 =
      some ⟨⟨Signal.HIGH, Signal.LOW, 0, false⟩, 0⟩ ∧
    (CountFilteringImmediateDebounceButton_init Signal.HIGH 0 (-5)).isSome = true := by
  constructor <;> decide

/-- C2 (code evaluated at the failing input): `isClickedOnce(100)` entered at time 0
after a press edge.  First conjunct: `isToReleased` is false at every poll,
including the final post-deadline check (release arriving only later) — the call
returns `true`, not `false` as claimed: the `not` applied to
`async_until_async`'s result inverts the timeout outcome.  Second conjunct: a
release observed by an in-loop poll is consumed there, so the final check returns
false and the call returns `true` (the intended success answer, by double
inversion).  Third conjunct: a late release landing exactly on the post-deadline
final check makes the call return `false`. -/
theorem isClickedOnce_inverted_timeout_result :
    isClickedOnce 100 true 0 [(false, 50), (false, 100), (false, 100)] = some true ∧
    isClickedOnce 100 true 0 [(true, 50), (false, 50)] = some true ∧
    isClickedOnce 100 true 0 [(false, 50), (false, 100), (true, 100)] = some false := by
  refine ⟨?_, ?_, ?_⟩ <;> decide

theorem isChangedStablyGo_eq (startV endV t : Int) : ∀ l : List Int,
    isChangedStablyGo startV endV t l =
      (leaveStart startV l).bind
        (fun rem => (countFiltering_sync endV t rem).map Prod.fst) := by
  intro l
  induction l with
  | nil => rfl
  | cons x xs ih =>
    simp only [isChangedStablyGo, leaveStart]
    by_cases hx : (x == startV) = true
    · simp [hx, ih]
    · simp [hx]

/-- C8: `isChangedStably_sync` (and the identical `isChangedStably_async`) returns
false if the first read is not at `start`; otherwise its result is exactly the
leave-`start` wait composed with the count filter at `end` on the remaining
samples — the `detectStableChange_spec` composition. -/
theorem isChangedStably_is_composition (startV endV t : Int) :
    (∀ samples, isChangedStably_sync startV endV t samples =
      detectStableChange_spec startV endV t samples) ∧
    (∀ samples, isChangedStably_async startV endV t samples =
      isChangedStably_sync startV endV t samples) ∧
    (∀ (r : Int) (rest : List Int), (r == startV) = false →
      isChangedStably_sync startV endV t (r :: rest) = some false) := by
  refine ⟨?_, fun _ => rfl, ?_⟩
  · intro samples
    cases samples with
    | nil => rfl
    | cons r rest =>
      simp only [isChangedStably_sync, detectStableChange_spec]
      by_cases hr : (r == startV) = true
      · simp [hr, isChangedStablyGo_eq]
      · simp [hr]
  · intro r rest hr
    simp [isChangedStably_sync, hr]

/-- Witness for C8: a first read off `start` returns false. -/
theorem isChangedStably_is_composition_witness :
    isChangedStably_sync 1 0 2 [0, 5] = some false :=
  (isChangedStably_is_composition 1 0 2).2.2 0 [5] (by decide)

/-! ### Count-filter trajectory lemmas (for C1) -/

theorem cntStep_eq_maxmin (targetV : Int) : ∀ c s : Int,
    cntStep targetV c s = if s == targetV then max c 0 + 1 else min c 0 - 1 := by
  intro c s
  simp only [cntStep]
  by_cases hs : (s == targetV) = true
  · rw [if_pos hs, if_pos hs]; split <;> omega
  · rw [if_neg hs, if_neg hs]; split <;> omega

theorem countFilteringGo_nil (targetV t c : Int) (h : -t < c ∧ c < t) :
    countFilteringGo targetV t c [] = none := by
  simp [countFilteringGo, h]

theorem countFilteringGo_cons (targetV t c : Int) (h : -t < c ∧ c < t)
    (s : Int) (l : List Int) :
    countFilteringGo targetV t c (s :: l) =
      (countFilteringGo targetV t (cntStep targetV c s) l).map
        (fun r => (r.1, r.2 + 1)) := by
  simp [countFilteringGo, h]

theorem countFilteringGo_exit (targetV t c : Int) (h : ¬(-t < c ∧ c < t)) :
    ∀ l : List Int, countFilteringGo targetV t c l = some (decide (t ≤ c), 0) := by
  intro l; cases l <;> simp [countFilteringGo, h]

theorem cntStep_saturate (targetV t c s : Int) (_ht : 0 < t) (h1 : -t < c) (h2 : c < t)
    (hnew : ¬(-t < cntStep targetV c s ∧ cntStep targetV c s < t)) :
    (cntStep targetV c s = t ∧ (s == targetV) = true) ∨
    (cntStep targetV c s = -t ∧ (s == targetV) = false) := by
  have hm := cntStep_eq_maxmin targetV c s
  by_cases hs : (s == targetV) = true
  · rw [if_pos hs] at hm
    exact Or.inl ⟨by omega, hs⟩
  · rw [if_neg hs] at hm
    exact Or.inr ⟨by omega, by simpa using hs⟩

/-- The loop of `countFiltering`: when it returns, it has consumed at least one and
at most all samples, every intermediate counter value is strictly inside
`(-threshold, threshold)`, the final counter is exactly `threshold` or
`-threshold`, and the returned boolean is `threshold <= cnt` at that final value. -/
theorem countFilteringGo_spec (targetV t : Int) (ht : 0 < t) :
    ∀ (samples : List Int) (cnt : Int) (b : Bool) (n : Nat),
      -t < cnt → cnt < t →
      countFilteringGo targetV t cnt samples = some (b, n) →
      1 ≤ n ∧ n ≤ samples.length ∧
      (∀ m, m < n → -t < cntIter targetV cnt (samples.take m) ∧
        cntIter targetV cnt (samples.take m) < t) ∧
      (cntIter targetV cnt (samples.take n) = t ∨
        cntIter targetV cnt (samples.take n) = -t) ∧
      b = decide (t ≤ cntIter targetV cnt (samples.take n)) := by
  intro samples
  induction samples with
  | nil =>
    intro cnt b n h1 h2 hgo
    rw [countFilteringGo_nil targetV t cnt ⟨h1, h2⟩] at hgo
    exact absurd hgo (by simp)
  | cons s rest ih =>
    intro cnt b n h1 h2 hgo
    rw [countFilteringGo_cons targetV t cnt ⟨h1, h2⟩ s rest] at hgo
    rcases Option.map_eq_some'.mp hgo with ⟨⟨b', m⟩, hrec, heq⟩
    obtain ⟨rfl, rfl⟩ : b' = b ∧ m + 1 = n := by simpa using heq
    by_cases hnew : -t < cntStep targetV cnt s ∧ cntStep targetV cnt s < t
    · obtain ⟨hm1, hmlen, hint, hfin, hb⟩ := ih (cntStep targetV cnt s) b' m hnew.1 hnew.2 hrec
      refine ⟨by omega, by simpa using Nat.succ_le_succ hmlen, ?_, hfin, hb⟩
      intro m' hm'
      cases m' with
      | zero => exact ⟨h1, h2⟩
      | succ j => exact hint j (by omega)
    · rw [countFilteringGo_exit targetV t _ hnew rest] at hrec
      obtain ⟨hb', hm0⟩ : decide (t ≤ cntStep targetV cnt s) = b' ∧ 0 = m := by
        simpa using hrec
      subst hm0
      have hsat := cntStep_saturate targetV t cnt s ht h1 h2 hnew
      refine ⟨le_refl 1, by simp, ?_, ?_, hb'.symm⟩
      · intro m' hm'
        interval_cases m'
        exact ⟨h1, h2⟩
      · show cntStep targetV cnt s = t ∨ cntStep targetV cnt s = -t
        rcases hsat with ⟨h, _⟩ | ⟨h, _⟩
        · exact Or.inl h
        · exact Or.inr h

/-- When the loop of `countFiltering` terminates with a positive final counter
`fc`, the run of consecutive target samples it just consumed accounts for at least
`fc - max cnt 0` reads, and the last `fc` consumed samples all equal the target. -/
theorem countFilteringGo_pos_run (targetV t : Int) (ht : 0 < t) :
    ∀ (samples : List Int) (cnt : Int) (b : Bool) (n : Nat),
      -t < cnt → cnt < t →
      countFilteringGo targetV t cnt samples = some (b, n) →
      1 ≤ cntIter targetV cnt (samples.take n) →
      cntIter targetV cnt (samples.take n) - max cnt 0 ≤ n ∧
      ((samples.take n).drop (n - (cntIter targetV cnt (samples.take n)).toNat)).all
        (fun x => x == targetV) = true := by
  intro samples
  induction samples with
  | nil =>
    intro cnt b n h1 h2 hgo
    rw [countFilteringGo_nil targetV t cnt ⟨h1, h2⟩] at hgo
    exact absurd hgo (by simp)
  | cons s rest ih =>
    intro cnt b n h1 h2 hgo hfc
    rw [countFilteringGo_cons targetV t cnt ⟨h1, h2⟩ s rest] at hgo
    rcases Option.map_eq_some'.mp hgo with ⟨⟨b', m⟩, hrec, heq⟩
    obtain ⟨rfl, rfl⟩ : b' = b ∧ m + 1 = n := by simpa using heq
    have hiter : cntIter targetV cnt ((s :: rest).take (m + 1)) =
        cntIter targetV (cntStep targetV cnt s) (rest.take m) := rfl
    rw [hiter] at hfc ⊢
    by_cases hnew : -t < cntStep targetV cnt s ∧ cntStep targetV cnt s < t
    · obtain ⟨ihA, ihB⟩ := ih (cntStep targetV cnt s) b' m hnew.1 hnew.2 hrec hfc
      set fc := cntIter targetV (cntStep targetV cnt s) (rest.take m) with hfcdef
      have hms := cntStep_eq_maxmin targetV cnt s
      constructor
      · by_cases hs : (s == targetV) = true
        · rw [if_pos hs] at hms; omega
        · rw [if_neg hs] at hms; omega
      · have htake : (s :: rest).take (m + 1) = s :: rest.take m := rfl
        rw [htake]
        by_cases hcmp : fc.toNat ≤ m
        · have hd : m + 1 - fc.toNat = (m - fc.toNat) + 1 := by omega
          rw [hd, List.drop_succ_cons]
          exact ihB
        · have hd : m + 1 - fc.toNat = 0 := by omega
          have hd' : m - fc.toNat = 0 := by omega
          rw [hd', List.drop_zero] at ihB
          rw [hd, List.drop_zero]
          have hnew1 : 1 ≤ cntStep targetV cnt s := by
            by_cases hs : (s == targetV) = true
            · rw [if_pos hs] at hms; omega
            · rw [if_neg hs] at hms; omega
          have hs : (s == targetV) = true := by
            by_contra hs'
            rw [if_neg hs'] at hms
            omega
          simp [List.all_cons, hs, ihB]
    · rw [countFilteringGo_exit targetV t _ hnew rest] at hrec
      obtain ⟨hb', hm0⟩ : decide (t ≤ cntStep targetV cnt s) = b' ∧ 0 = m := by
        simpa using hrec
      subst hm0
      have hiter1 : cntIter targetV (cntStep targetV cnt s) (rest.take 0) =
          cntStep targetV cnt s := rfl
      rw [hiter1] at hfc ⊢
      have hsat := cntStep_saturate targetV t cnt s ht h1 h2 hnew
      rcases hsat with ⟨hval, hs⟩ | ⟨hval, hs⟩
      · have hms := cntStep_eq_maxmin targetV cnt s
        rw [if_pos hs] at hms
        constructor
        · omega
        · have hd : 0 + 1 - (cntStep targetV cnt s).toNat = 0 := by omega
          rw [hd]
          simp [hs]
      · omega

/-- When the loop of `countFiltering` terminates and the last `threshold` consumed
samples all equal the target, the returned boolean is `true`. -/
theorem countFilteringGo_all_target (targetV t : Int) (ht : 0 < t) :
    ∀ (samples : List Int) (cnt : Int) (b : Bool) (n : Nat),
      -t < cnt → cnt < t →
      countFilteringGo targetV t cnt samples = some (b, n) →
      ((samples.take n).drop (n - t.toNat)).all (fun x => x == targetV) = true →
      b = true := by
  intro samples
  induction samples with
  | nil =>
    intro cnt b n h1 h2 hgo
    rw [countFilteringGo_nil targetV t cnt ⟨h1, h2⟩] at hgo
    exact absurd hgo (by simp)
  | cons s rest ih =>
    intro cnt b n h1 h2 hgo hall
    rw [countFilteringGo_cons targetV t cnt ⟨h1, h2⟩ s rest] at hgo
    rcases Option.map_eq_some'.mp hgo with ⟨⟨b', m⟩, hrec, heq⟩
    obtain ⟨rfl, rfl⟩ : b' = b ∧ m + 1 = n := by simpa using heq
    have htake : (s :: rest).take (m + 1) = s :: rest.take m := rfl
    rw [htake] at hall
    by_cases hnew : -t < cntStep targetV cnt s ∧ cntStep targetV cnt s < t
    · refine ih (cntStep targetV cnt s) b' m hnew.1 hnew.2 hrec ?_
      by_cases hcmp : t.toNat ≤ m
      · have hd : m + 1 - t.toNat = (m - t.toNat) + 1 := by omega
        rw [hd, List.drop_succ_cons] at hall
        exact hall
      · have hd : m + 1 - t.toNat = 0 := by omega
        have hd' : m - t.toNat = 0 := by omega
        rw [hd, List.drop_zero, List.all_cons, Bool.and_eq_true] at hall
        rw [hd', List.drop_zero]
        exact hall.2
    · rw [countFilteringGo_exit targetV t _ hnew rest] at hrec
      obtain ⟨hb', hm0⟩ : decide (t ≤ cntStep targetV cnt s) = b' ∧ 0 = m := by
        simpa using hrec
      subst hm0
      have hd : 0 + 1 - t.toNat = 0 := by omega
      rw [hd, List.drop_zero, List.all_cons, Bool.and_eq_true] at hall
      have hs : (s == targetV) = true := hall.1
      have hms := cntStep_eq_maxmin targetV cnt s
      rw [if_pos hs] at hms
      rcases cntStep_saturate targetV t cnt s ht h1 h2 hnew with ⟨hval, _⟩ | ⟨hval, _⟩
      · rw [← hb', hval]
        simp
      · omega

/-- C1: for every threshold > 0, `countFiltering_sync` (and the identical
`countFiltering_async`) maintains its counter so that a target sample sets it to
`max(counter, 0) + 1` and a non-target sample to `min(counter, 0) - 1` (so a single
non-target sample after a positive run resets it to exactly `-1`); the loop exits
the first instant `|counter| = threshold` (every intermediate counter is strictly
inside, the final one exactly `±threshold`); and the call returns true if and only
if the final `threshold` consecutive consumed samples all equal the target. -/
theorem countFiltering_count_filter_spec (targetV t : Int) (ht : 0 < t)
    (samples : List Int) (b : Bool) (n : Nat)
    (h : countFiltering_sync targetV t samples = some (b, n)) :
    (∀ c s : Int, cntStep targetV c s =
      if s == targetV then max c 0 + 1 else min c 0 - 1) ∧
    (∀ c s : Int, 0 < c → (s == targetV) = false → cntStep targetV c s = -1) ∧
    countFiltering_async targetV t samples = some (b, n) ∧
    n ≤ samples.length ∧
    (∀ m, m < n → -t < cntIter targetV 0 (samples.take m) ∧
      cntIter targetV 0 (samples.take m) < t) ∧
    (cntIter targetV 0 (samples.take n) = t ∨ cntIter targetV 0 (samples.take n) = -t) ∧
    (b = true ↔ t.toNat ≤ n ∧
      ((samples.take n).drop (n - t.toNat)).all (fun x => x == targetV) = true) := by
  have h0a : -t < (0 : Int) := by omega
  have h0b : (0 : Int) < t := ht
  obtain ⟨hn1, hnlen, hint, hfin, hb⟩ :=
    countFilteringGo_spec targetV t ht samples 0 b n h0a h0b h
  refine ⟨?_, ?_, h, hnlen, hint, hfin, ?_, ?_⟩
  · exact cntStep_eq_maxmin targetV
  · intro c s hc hs
    have := cntStep_eq_maxmin targetV c s
    rw [if_neg (by simp [hs])] at this
    omega
  · intro hbtrue
    rw [hbtrue] at hb
    have hle : t ≤ cntIter targetV 0 (samples.take n) := of_decide_eq_true hb.symm
    have hfc : cntIter targetV 0 (samples.take n) = t := by
      rcases hfin with hfc | hfc
      · exact hfc
      · omega
    obtain ⟨hrun, hall⟩ :=
      countFilteringGo_pos_run targetV t ht samples 0 b n h0a h0b h (by omega)
    rw [hfc] at hall hrun
    exact ⟨by omega, hall⟩
  · intro ⟨_, hall⟩
    exact countFilteringGo_all_target targetV t ht samples 0 b n h0a h0b h hall

/-- Witness for C1: target 1, threshold 2, samples `[1, 0, 1, 1]` — the loop
consumes all four reads (the non-target read resets the counter to −1) and
returns true because the final two samples equal the target. -/
theorem countFiltering_count_filter_spec_witness :
    (2 : Int).toNat ≤ 4 ∧
    ((([1, 0, 1, 1] : List Int).take 4).drop (4 - (2 : Int).toNat)).all
      (fun x => x == (1 : Int)) = true :=
  ((countFiltering_count_filter_spec 1 2 (by decide) [1, 0, 1, 1] true 4
    (by decide)).2.2.2.2.2.2).mp rfl

/-! ### Click-sequence deadline lemmas (for C7) -/

theorem waitEdgeFrom_le (f : Int → Bool) : ∀ (b : Nat) (now : Int),
    now ≤ waitEdgeFrom f now b := by
  intro b
  induction b with
  | zero => intro now; exact le_refl now
  | succ b ih =>
    intro now
    simp only [waitEdgeFrom]
    split
    · exact le_refl now
    · exact le_trans (by omega) (ih (now + 1))

theorem waitEdge_le (f : Int → Bool) (end_ms now : Int) :
    now ≤ waitEdge f end_ms now :=
  waitEdgeFrom_le f _ now

theorem waitEdge_absorb (f : Int → Bool) (end_ms now : Int) (h : end_ms ≤ now) :
    waitEdge f end_ms now = now := by
  unfold waitEdge
  have h0 : (end_ms - now).toNat = 0 := by omega
  rw [h0]
  rfl

theorem clickChainTime_le (env : ClickEnv) (end_ms : Int) : ∀ (k : Nat) (now : Int),
    now ≤ clickChainTime env end_ms k now := by
  intro k
  induction k with
  | zero => intro now; exact le_refl now
  | succ k ih =>
    intro now
    calc now ≤ waitEdge env.rel end_ms now := waitEdge_le _ _ _
    _ ≤ waitEdge env.prs end_ms (waitEdge env.rel end_ms now) := waitEdge_le _ _ _
    _ ≤ _ := ih _

theorem clickReps_none (env : ClickEnv) (end_ms : Int) : ∀ (k : Nat) (now : Int),
    clickReps env end_ms k now = none →
    end_ms ≤ clickChainTime env end_ms k now := by
  intro k
  induction k with
  | zero => intro now h; exact absurd h (by simp [clickReps])
  | succ k ih =>
    intro now h
    simp only [clickReps] at h
    split at h
    · calc end_ms ≤ waitEdge env.prs end_ms (waitEdge env.rel end_ms now) := by assumption
      _ ≤ clickChainTime env end_ms k _ := clickChainTime_le _ _ _ _
    · exact ih _ h

theorem clickReps_some (env : ClickEnv) (end_ms : Int) : ∀ (k : Nat) (now tt : Int),
    clickReps env end_ms k now = some tt →
    tt = clickChainTime env end_ms k now := by
  intro k
  induction k with
  | zero =>
    intro now tt h
    simp only [clickReps, Option.some.injEq] at h
    exact h.symm
  | succ k ih =>
    intro now tt h
    simp only [clickReps] at h
    split at h
    · exact absurd h (by simp)
    · exact ih _ _ h

set_option maxRecDepth 100000 in
/-- C7: `isClicked(timeout_ms, times)` races the whole click sequence against the
single absolute deadline `now0 + timeout_ms` computed once after the initial press
edge: it returns true exactly when the chained release/press waits and the final
release wait all complete strictly before that one shared deadline (conjunct 1);
in particular `isClicked(500, 2)` returns true for a press–release–press–release
sequence finishing within 500 ms of the first press (conjunct 2) and false for the
same sequence taking 600 ms (conjunct 3). -/
theorem isClicked_single_deadline :
    (∀ (T nclicks : Int) (env : ClickEnv) (now0 : Int),
        1 ≤ T → 1 ≤ nclicks → env.prs now0 = true →
        (isClicked T nclicks env now0 = true ↔
          clickFinalTime env (now0 + T) (nclicks - 1).toNat now0 < now0 + T)) ∧
    isClicked 500 2 env500 0 = true ∧
    isClicked 500 2 env600 0 = false := by
  refine ⟨?_, by decide, by decide⟩
  intro T nclicks env now0 hT hn hp
  have hcond : ¬(nclicks < 1 ∨ T < 1) := by omega
  rw [isClicked, if_neg hcond, if_neg (by simp [hp])]
  rcases hrep : clickReps env (now0 + T) (nclicks - 1).toNat now0 with _ | tt
  · have hge := clickReps_none env (now0 + T) _ _ hrep
    have hfin : now0 + T ≤ clickFinalTime env (now0 + T) (nclicks - 1).toNat now0 :=
      le_trans hge (waitEdge_le _ _ _)
    simp only []
    constructor
    · intro h; exact absurd h (by simp)
    · intro h; omega
  · have htt := clickReps_some env (now0 + T) _ _ _ hrep
    simp only []
    rw [htt]
    unfold clickFinalTime
    split
    · constructor
      · intro h; exact absurd h (by simp)
      · intro h; omega
    · constructor
      · intro _; omega
      · intro _; rfl

/-- Witness for C7 at `timeout_ms = 500`, `times = 2`, the within-budget
environment `env500`, entry time 0. -/
theorem isClicked_single_deadline_witness :
    isClicked 500 2 env500 0 = true ↔
      clickFinalTime env500 (0 + 500) ((2 : Int) - 1).toNat 0 < 0 + 500 :=
  isClicked_single_deadline.1 500 2 env500 0 (by decide) (by decide) (by decide)

end MicroPythonEsp32
